import Mathlib

/-!
Shallow embedding of the Firmable AI Business Searcher API layer
(src/lib/rate-limit.ts, src/lib/auth.ts, src/app/api/chat/route.ts, the
analyze route) together with a model of the analysis-cache and chunk-index
core described by the system specification.

Timestamps and counters are Nat (JavaScript numbers never reach overflow
ranges in this code). The in-memory Map objects are association lists with
explicit state passing. Request handling is a pure function from a request,
the current time and the rate-limit state to a response and the new state.
-/

namespace RateLimit

/-- One entry of the in-memory rate-limit map:
`{ count: number; resetTime: number }` from src/lib/rate-limit.ts. -/
structure Window where
  count : Nat
  resetTime : Nat
deriving Repr, DecidableEq

/-- The module-level `rateLimitMap : Map<string, { count; resetTime }>`,
modelled as an association list from client IP to window. -/
abbrev RLState := List (String × Window)

/-- `rateLimitMap.get(key)` -/
def lookup : RLState → String → Option Window
  | [], _ => none
  | (k, w) :: rest, key => if k = key then some w else lookup rest key

/-- `rateLimitMap.set(key, w)` (also models the in-place `current.count++`,
which overwrites the entry for the key). -/
def setEntry : RLState → String → Window → RLState
  | [], key, w => [(key, w)]
  | (k, w0) :: rest, key, w =>
    if k = key then (k, w) :: rest else (k, w0) :: setEntry rest key w

/-- `windowMs = 60 * 1000` (one minute window). -/
def windowMs : Nat := 60 * 1000

/-- `checkRateLimit(clientIp, maxRequests)` from src/lib/rate-limit.ts, with
`Date.now()` and the module map made explicit.  Returns the boolean verdict
and the updated map. -/
def checkRateLimit (clientIp : String) (maxRequests : Nat) (now : Nat)
    (st : RLState) : Bool × RLState :=
  let key := clientIp
  match lookup st key with
  | none => (true, setEntry st key ⟨1, now + windowMs⟩)
  | some current =>
    if current.resetTime < now then
      (true, setEntry st key ⟨1, now + windowMs⟩)
    else if maxRequests ≤ current.count then
      (false, st)
    else
      (true, setEntry st key ⟨current.count + 1, current.resetTime⟩)

/-- A sequence of `checkRateLimit` calls for one client at the given
timestamps, threading the map; returns the list of verdicts and the final
map. -/
def simulate (clientIp : String) (maxRequests : Nat) :
    List Nat → RLState → List Bool × RLState
  | [], st => ([], st)
  | t :: ts, st =>
    let r := checkRateLimit clientIp maxRequests t st
    let rest := simulate clientIp maxRequests ts r.2
    (r.1 :: rest.1, rest.2)

end RateLimit

namespace Auth

/-- The JavaScript `\s` character class, restricted to the ASCII whitespace
characters (the only ones that occur in Bearer headers). -/
def jsWhitespace (c : Char) : Bool :=
  c = ' ' || c = '\t' || c = '\n' || c = '\r' || c = '\x0b' || c = '\x0c'

/-- `['B','e','a','r','e','r']`, the literal part of the `/^Bearer\s+/`
pattern. -/
def bearerChars : List Char := ['B', 'e', 'a', 'r', 'e', 'r']

/-- Boolean list-prefix test (structural, so concrete instances reduce). -/
def isPrefixOfB : List Char → List Char → Bool
  | [], _ => true
  | _ :: _, [] => false
  | a :: as, b :: bs => a = b && isPrefixOfB as bs

/-- `authHeader.replace(/^Bearer\s+/, "")` from src/lib/auth.ts: when the
header starts with `Bearer` followed by at least one whitespace character,
drop `Bearer` and the maximal whitespace run; otherwise the header is
returned unchanged. -/
def stripBearer (s : String) : String :=
  if isPrefixOfB bearerChars s.data then
    match s.data.drop 6 with
    | [] => s
    | c :: rest =>
      if jsWhitespace c then String.mk ((c :: rest).dropWhile jsWhitespace)
      else s
  else s

/-- `validateApiKey(authHeader)` from src/lib/auth.ts: a missing header is
rejected; otherwise the token left after stripping the Bearer prefix is
accepted whenever it is non-empty (`token.length > 0`).  The function takes
no configured secret: no comparison against one occurs anywhere in it. -/
def validateApiKey : Option String → Bool
  | none => false
  | some s => !(stripBearer s).data.isEmpty

end Auth

namespace Api

/-- One turn of conversation history (`{ role, content }`). -/
structure Msg where
  role : String
  content : String
deriving Repr, DecidableEq

/-- `ConversationRequest` from src/lib/types.ts.  `none` in `url`/`query`
models a field absent from the JSON body (JavaScript `undefined`). -/
structure ConversationRequest where
  url : Option String
  query : Option String
  conversation_history : Option (List Msg)
deriving Repr, DecidableEq

/-- `AnalysisRequest` from src/lib/types.ts. -/
structure AnalysisRequest where
  url : Option String
deriving Repr, DecidableEq

/-- The JSON bodies the two routes can produce, tagged by shape. -/
inductive Body where
  | unauthorizedBody
  | tooManyRequestsBody
  | badRequestBody (message : String)
  | chatSuccessBody (response : String) (conversation_history : List Msg)
  | analyzeSuccessBody (url : String)
  | serverErrorBody
deriving Repr, DecidableEq

/-- A `Response.json(body, { status })` value. -/
structure HttpResponse where
  status : Nat
  body : Body
deriving Repr, DecidableEq

/-- `unauthorizedResponse()` from src/lib/auth.ts: status 401. -/
def unauthorizedResponse : HttpResponse := ⟨401, Body.unauthorizedBody⟩

/-- `rateLimitResponse()` from src/lib/rate-limit.ts: status 429. -/
def rateLimitResponse : HttpResponse := ⟨429, Body.tooManyRequestsBody⟩

/-- JavaScript truthiness of an optional string field: `undefined` and the
empty string are falsy. -/
def truthy : Option String → Bool
  | none => false
  | some s => !s.data.isEmpty

/-- The parts of a NextRequest the chat route reads: the authorization and
x-forwarded-for headers and the parsed JSON body (`none` models a body that
fails to parse, which the catch block turns into a 500). -/
structure ChatHttpRequest where
  authorization : Option String
  xForwardedFor : Option String
  body : Option ConversationRequest
deriving Repr, DecidableEq

/-- The parts of a NextRequest the analyze route reads. -/
structure AnalyzeHttpRequest where
  authorization : Option String
  xForwardedFor : Option String
  body : Option AnalysisRequest
deriving Repr, DecidableEq

/-- The placeholder `response` string returned by the chat route. -/
def chatResponseText : String :=
  "Conversational chat endpoint ready. AI-powered responses will be implemented in a later task."

/-- The placeholder assistant turn appended by the chat route. -/
def chatAssistantText : String := "Chat functionality coming soon!"

/-- `POST` of src/app/api/chat/route.ts.  Note the faithful modelling of
line 15: `if (!checkRateLimit(clientIp, 20));` ends in a stray semicolon,
so the conditional has an empty body — the boolean verdict is discarded and
only the map mutation performed inside `checkRateLimit` survives. -/
def chatPOST (req : ChatHttpRequest) (now : Nat) (st : RateLimit.RLState) :
    HttpResponse × RateLimit.RLState :=
  if !Auth.validateApiKey req.authorization then
    (unauthorizedResponse, st)
  else
    let clientIp := req.xForwardedFor.getD ("unknown")
    let st1 := (RateLimit.checkRateLimit clientIp 20 now st).2
    match req.body with
    | none => (⟨500, Body.serverErrorBody⟩, st1)
    | some body =>
      if !truthy body.url || !truthy body.query then
        (⟨400, Body.badRequestBody ("URL and query are required")⟩, st1)
      else
        (⟨200, Body.chatSuccessBody chatResponseText
            ((body.conversation_history.getD []) ++
              [⟨"user", body.query.getD ("")⟩,
               ⟨"assistant", chatAssistantText⟩])⟩, st1)

/-- Abstraction of the WHATWG `new URL(...)` constructor validity test in
the analyze route: a string parses when it splits as
`scheme "://" remainder` with both parts non-empty.  No claim depends on
the precise accepted set, only on the position of this check after the
auth, rate-limit and presence checks. -/
def urlParses (s : String) : Bool :=
  match s.splitOn ("://") with
  | scheme :: rest :: _ => !scheme.data.isEmpty && !rest.data.isEmpty
  | _ => false

/-- `POST` of the analyze route (src/unnamed/part_001).  Unlike the chat
route, its rate-limit check does return `rateLimitResponse()` when the
verdict is false. -/
def analyzePOST (req : AnalyzeHttpRequest) (now : Nat) (st : RateLimit.RLState) :
    HttpResponse × RateLimit.RLState :=
  if !Auth.validateApiKey req.authorization then
    (unauthorizedResponse, st)
  else
    let clientIp := req.xForwardedFor.getD ("unknown")
    let r := RateLimit.checkRateLimit clientIp 10 now st
    if !r.1 then
      (rateLimitResponse, r.2)
    else
      match req.body with
      | none => (⟨500, Body.serverErrorBody⟩, r.2)
      | some body =>
        if !truthy body.url then
          (⟨400, Body.badRequestBody ("URL is required")⟩, r.2)
        else if !urlParses (body.url.getD ("")) then
          (⟨400, Body.badRequestBody ("Invalid URL format")⟩, r.2)
        else
          (⟨200, Body.analyzeSuccessBody (body.url.getD (""))⟩, r.2)

end Api

namespace Core

/-- Modelled from the spec: the `status` enum of the AnalysisRecord (§3).
The backend cache implementation (the FastAPI `api/` modules, e.g.
`api/data_store.py`) is not present under src/; every definition in this
namespace is modelled from the specification text. -/
inductive Status where
  | pending
  | ready
  | failed
deriving Repr, DecidableEq

/-- Modelled from the spec: one chunk of §3 —
`{id, sourceURL, text, embeddingVector?}`.  Embedding vectors are integer
lists (§4.2; only their induced ranking matters to the claims). -/
structure Chunk where
  id : Nat
  sourceURL : String
  text : String
  embedding : Option (List Int)
deriving Repr, DecidableEq

/-- Modelled from the spec: the categorized link index of §3 (`social`,
`contact`, `internal`, other-host, `email`).  The other-host category is
named `outbound` here. -/
structure LinkIndex where
  social : List String
  contact : List String
  internal : List String
  outbound : List String
  email : List String
deriving Repr, DecidableEq

/-- Concatenates the newly discovered links onto each category. -/
def mergeLinks (a b : LinkIndex) : LinkIndex :=
  ⟨a.social ++ b.social, a.contact ++ b.contact, a.internal ++ b.internal,
   a.outbound ++ b.outbound, a.email ++ b.email⟩

/-- Modelled from the spec: the AnalysisRecord of §3 (insights kept as a
name-to-answer association list; the in-flight signal lives in the
single-flight model below). -/
structure AnalysisRecord where
  key : String
  status : Status
  rawContent : List (String × String)
  linkIndex : LinkIndex
  chunks : List Chunk
  insights : List (String × String)
  createdAt : Nat
  lastAccessedAt : Nat
deriving Repr, DecidableEq

/-- Maximum chunk size in characters (§4.2: segments bounded by a budget). -/
def chunkSize : Nat := 500

/-- Overlap margin between consecutive segments (§4.2). -/
def chunkOverlap : Nat := 50

/-- Modelled from the spec: splitting text into bounded, overlapping
segments (§4.2).  Consecutive segments overlap by `chunkOverlap`
characters. -/
def segmentChars (cs : List Char) : List (List Char) :=
  if _h : cs.length ≤ chunkSize then [cs]
  else cs.take chunkSize :: segmentChars (cs.drop (chunkSize - chunkOverlap))
termination_by cs.length
decreasing_by
  simp only [List.length_drop]
  simp only [chunkSize, chunkOverlap] at _h ⊢
  omega

/-- Modelled from the spec: `Build(text, sourceURL)` of §4.2, assigning ids
sequentially from `firstId` so that augmentation continues the id
sequence. -/
def buildChunks (sourceURL text : String) (firstId : Nat) : List Chunk :=
  (segmentChars text.data).enum.map
    (fun p => ⟨firstId + p.1, sourceURL, String.mk p.2, none⟩)

/-- Modelled from the spec: `AppendPage(url, subURL, text, links)` of §4.3 —
appends the new page text to `rawContent`, appends freshly built chunks for
the new text after the existing chunks (augmentation is additive and never
replaces), and merges the newly discovered links. -/
def appendPage (rec : AnalysisRecord) (subURL text : String)
    (links : LinkIndex) : AnalysisRecord :=
  { rec with
    rawContent := rec.rawContent ++ [(subURL, text)]
    chunks := rec.chunks ++ buildChunks subURL text rec.chunks.length
    linkIndex := mergeLinks rec.linkIndex links }

/-- Splits a character list at spaces (structural, so concrete instances
reduce in the kernel). -/
def splitWordsAux (cur : List Char) : List Char → List (List Char)
  | [] => [cur.reverse]
  | c :: cs =>
    if c = ' ' then cur.reverse :: splitWordsAux [] cs
    else splitWordsAux (c :: cur) cs

/-- Modelled from the spec: the significant terms of a text (§4.2 lexical
fallback) — its words longer than two characters, without duplicates. -/
def significantTerms (s : String) : List (List Char) :=
  ((splitWordsAux [] s.data).filter (fun w => 2 < w.length)).dedup

/-- Modelled from the spec: the lexical overlap score of §4.2 — the count
of significant query terms that also occur in the chunk text.  The spec
normalizes by the query term count; that constant is shared by every chunk
scored within one Retrieve call, so the induced ranking is identical and
the model ranks by the raw shared count. -/
def sharedTermCount (query text : String) : Nat :=
  ((significantTerms query).filter
    (fun w => (significantTerms text).contains w)).length

/-- A scored chunk as ranked by Retrieve: (append position, chunk, score). -/
abbrev Ranked := Nat × Chunk × Int

/-- Every chunk paired with its append position and lexical score for the
query. -/
def scoredChunks (chunks : List Chunk) (query : String) : List Ranked :=
  chunks.enum.map (fun p => (p.1, p.2, (sharedTermCount query p.2.text : Int)))

/-- Modelled from the spec: the ranking order of §4.2 — higher score first;
equal scores break by chunk recency, the later-appended chunk ranking above
the earlier one. -/
def rankLe (a b : Ranked) : Prop :=
  b.2.2 < a.2.2 ∨ (a.2.2 = b.2.2 ∧ b.1 ≤ a.1)

instance : DecidableRel rankLe := fun a b => by
  unfold rankLe; infer_instance

instance : IsTotal Ranked rankLe := by
  constructor
  intro a b
  unfold rankLe
  omega

instance : IsTrans Ranked rankLe := by
  constructor
  intro a b c hab hbc
  unfold rankLe at hab hbc ⊢
  omega

/-- The full ranking Retrieve produces before truncation to `k`. -/
def rankChunks (chunks : List Chunk) (query : String) : List Ranked :=
  List.insertionSort rankLe (scoredChunks chunks query)

/-- Modelled from the spec: `Retrieve(chunks, query, k)` of §4.2 on the
lexical-fallback path — rank every chunk and return the top `k`. -/
def retrieveLex (chunks : List Chunk) (query : String) (k : Nat) : List Ranked :=
  (rankChunks chunks query).take k

/-- What it means for a list to be a valid ranking of the chunk set for the
query: it contains exactly the scored chunks and is ordered by the ranking
order. -/
def IsRankingOf (chunks : List Chunk) (query : String) (l : List Ranked) : Prop :=
  l.Perm (scoredChunks chunks query) ∧ l.Pairwise rankLe

/-- The optional embedding service of §6: `Embed(text) → vector, error`. -/
abbrev EmbedSvc := String → Except String (List Int)

/-- Integer dot product, the model of the vector similarity of §4.2 (only
the induced ranking matters to the claims settled here). -/
def dotProduct : List Int → List Int → Int
  | a :: as, b :: bs => a * b + dotProduct as bs
  | _, _ => 0

/-- Scores every chunk by vector similarity against the embedded query;
errors when a chunk carries no embedding vector. -/
def scoredByEmbedding (qv : List Int) (chunks : List Chunk) :
    Except String (List Ranked) :=
  match chunks.mapM (fun c => c.embedding) with
  | none => Except.error ("chunk missing embedding vector")
  | some vecs =>
    Except.ok ((chunks.zip vecs).enum.map
      (fun p => (p.1, p.2.1, dotProduct qv p.2.2)))

/-- Modelled from the spec: `Retrieve` with the two-tier scoring strategy of
§4.2.  When an embedding service is configured and embeds the query, chunks
are ranked by vector similarity; when no service is configured or the
embedding call errors, the lexical overlap ranking is used instead — the
fallback tier raises no error. -/
def retrieveE (svc : Option EmbedSvc) (chunks : List Chunk) (query : String)
    (k : Nat) : Except String (List Ranked) :=
  match svc with
  | none => Except.ok (retrieveLex chunks query k)
  | some embed =>
    match embed query with
    | Except.error _ => Except.ok (retrieveLex chunks query k)
    | Except.ok qv =>
      match scoredByEmbedding qv chunks with
      | Except.error _ => Except.ok (retrieveLex chunks query k)
      | Except.ok scored =>
        Except.ok ((List.insertionSort rankLe scored).take k)

/-- Modelled from the spec: the single-flight state of one cache key
(§4.3, §5) — the record status, how many times `fetchAndExtractFn` has been
started, the callers blocked on `inFlightSignal`, and the results delivered
to callers once the in-flight work resolves. -/
structure SFState where
  status : Option Status
  fetchCount : Nat
  waiting : List Nat
  delivered : List (Nat × String)
deriving Repr, DecidableEq

/-- The cold-cache state for a key: no record, no fetch started. -/
def SFState.init : SFState := ⟨none, 0, [], []⟩

/-- Modelled from the spec: one `AnalyzeURL`/`GetOrCreate` call arriving for
the key (§4.3).  A PENDING-eligible key (no record, or FAILED on an
explicit retry) starts the single fetch and the caller waits on
`inFlightSignal`; an arrival while PENDING joins the waiters and starts no
fetch; an arrival at READY is served from cache and starts no fetch. -/
def arrive (caller : Nat) (s : SFState) : SFState :=
  match s.status with
  | none =>
    { s with status := some Status.pending, fetchCount := s.fetchCount + 1,
             waiting := s.waiting ++ [caller] }
  | some Status.pending => { s with waiting := s.waiting ++ [caller] }
  | some Status.ready => s
  | some Status.failed =>
    { s with status := some Status.pending, fetchCount := s.fetchCount + 1,
             waiting := s.waiting ++ [caller] }

/-- A batch of concurrent arrivals, interleaved in some order before the
in-flight work resolves. -/
def arriveAll (callers : List Nat) (s : SFState) : SFState :=
  callers.foldl (fun st c => arrive c st) s

/-- Modelled from the spec: the single in-flight fetch+extract resolving
with result `v` — the record becomes READY and every caller waiting on
`inFlightSignal` receives the same result (§4.3 single-flight). -/
def resolve (v : String) (s : SFState) : SFState :=
  { s with status := some Status.ready, waiting := [],
           delivered := s.delivered ++ s.waiting.map (fun c => (c, v)) }

end Core

namespace Core

/-- A small READY record used by witnesses: one cached homepage chunk. -/
def sampleRecord : AnalysisRecord :=
  ⟨"https://acme.example", Status.ready,
   [("https://acme.example", "alpha beta")],
   ⟨[], [], [], [], []⟩,
   [⟨0, "https://acme.example", "alpha beta", none⟩],
   [], 0, 0⟩

end Core

/-- A non-empty string has a non-empty character list. -/
theorem data_isEmpty_false {s : String} (h : s ≠ "") : s.data.isEmpty = false := by
  cases s with
  | mk d =>
    cases d with
    | nil => exact absurd rfl h
    | cons c cs => rfl

/-- A missing header, or one whose token is empty after stripping the
Bearer prefix, fails validation. -/
theorem validateApiKey_eq_false {h : Option String}
    (hh : h = none ∨ ∃ s, h = some s ∧ Auth.stripBearer s = "") :
    Auth.validateApiKey h = false := by
  rcases hh with rfl | ⟨s, rfl, hs⟩
  · rfl
  · simp [Auth.validateApiKey, hs]

/-- C9: validateApiKey accepts every authorization header whose token is
non-empty after stripping the Bearer prefix, regardless of the token value —
the model takes no configured secret and compares against none. -/
theorem validateApiKey_accepts_any_nonempty_token (s : String)
    (h : Auth.stripBearer s ≠ "") :
    Auth.validateApiKey (some s) = true := by
  simp [Auth.validateApiKey, data_isEmpty_false h]

theorem validateApiKey_accepts_any_nonempty_token_witness :
    Auth.stripBearer ("Bearer not-the-configured-secret") ≠ "" ∧
    Auth.validateApiKey (some ("Bearer not-the-configured-secret")) = true :=
  ⟨by decide,
   validateApiKey_accepts_any_nonempty_token ("Bearer not-the-configured-secret") (by decide)⟩

/-- C3: a request whose authorization header is missing, or whose token is
empty after stripping the Bearer prefix, is answered 401 by both the chat
and the analyze POST handler, and the body handling never runs (the
response is exactly the unauthorized response and the rate-limit map is
untouched). -/
theorem missing_or_empty_token_unauthorized
    (creq : Api.ChatHttpRequest) (areq : Api.AnalyzeHttpRequest)
    (now : Nat) (st : RateLimit.RLState)
    (hc : creq.authorization = none ∨
      ∃ s, creq.authorization = some s ∧ Auth.stripBearer s = "")
    (ha : areq.authorization = none ∨
      ∃ s, areq.authorization = some s ∧ Auth.stripBearer s = "") :
    Api.chatPOST creq now st = (Api.unauthorizedResponse, st) ∧
    Api.analyzePOST areq now st = (Api.unauthorizedResponse, st) := by
  constructor
  · simp [Api.chatPOST, validateApiKey_eq_false hc]
  · simp [Api.analyzePOST, validateApiKey_eq_false ha]

theorem missing_or_empty_token_unauthorized_witness :
    Api.chatPOST ⟨none, none, none⟩ 0 [] = (Api.unauthorizedResponse, []) ∧
    Api.analyzePOST ⟨some ("Bearer "), none, none⟩ 0 [] =
      (Api.unauthorizedResponse, []) :=
  missing_or_empty_token_unauthorized ⟨none, none, none⟩
    ⟨some ("Bearer "), none, none⟩ 0 []
    (Or.inl rfl) (Or.inr ⟨"Bearer ", rfl, by decide⟩)

/-- C10: once past authentication, a chat body whose url or query is
missing or empty is answered 400 with message "URL and query are required",
and no conversation response is constructed. -/
theorem chat_missing_url_or_query_bad_request
    (auth xff : Option String) (body : Api.ConversationRequest)
    (now : Nat) (st : RateLimit.RLState)
    (hauth : Auth.validateApiKey auth = true)
    (hmiss : Api.truthy body.url = false ∨ Api.truthy body.query = false) :
    (Api.chatPOST ⟨auth, xff, some body⟩ now st).1 =
      ⟨400, Api.Body.badRequestBody ("URL and query are required")⟩ ∧
    ∀ r hist, (Api.chatPOST ⟨auth, xff, some body⟩ now st).1.body ≠
      Api.Body.chatSuccessBody r hist := by
  have hcond : (!Api.truthy body.url || !Api.truthy body.query) = true := by
    rcases hmiss with h | h <;> simp [h]
  constructor
  · simp [Api.chatPOST, hauth, hcond]
  · intro r hist
    simp [Api.chatPOST, hauth, hcond]

theorem chat_missing_url_or_query_bad_request_witness :
    Auth.validateApiKey (some ("Bearer x")) = true ∧
    ((Api.chatPOST ⟨some ("Bearer x"), none, some ⟨none, some ("hi"), none⟩⟩ 0 []).1 =
        ⟨400, Api.Body.badRequestBody ("URL and query are required")⟩ ∧
     ∀ r hist,
       (Api.chatPOST ⟨some ("Bearer x"), none, some ⟨none, some ("hi"), none⟩⟩ 0 []).1.body ≠
         Api.Body.chatSuccessBody r hist) :=
  ⟨by decide,
   chat_missing_url_or_query_bad_request (some ("Bearer x")) none
     ⟨none, some ("hi"), none⟩ 0 [] (by decide) (Or.inl (by decide))⟩

/-- C4: a chat request that passes authentication and carries a non-empty
url and query succeeds (status 200) even when conversation_history is
absent, and the returned history is the caller-supplied history (empty list
when missing) with exactly two turns appended: a user turn whose content is
the query, then an assistant turn. -/
theorem chat_appends_two_turns
    (auth xff : Option String) (u q : String) (hist : Option (List Api.Msg))
    (now : Nat) (st : RateLimit.RLState)
    (hauth : Auth.validateApiKey auth = true) (hu : u ≠ "") (hq : q ≠ "") :
    (Api.chatPOST ⟨auth, xff, some ⟨some u, some q, hist⟩⟩ now st).1 =
      ⟨200, Api.Body.chatSuccessBody Api.chatResponseText
        ((hist.getD []) ++
          [⟨"user", q⟩, ⟨"assistant", Api.chatAssistantText⟩])⟩ := by
  have hu2 : Api.truthy (some u) = true := by
    simp [Api.truthy, data_isEmpty_false hu]
  have hq2 : Api.truthy (some q) = true := by
    simp [Api.truthy, data_isEmpty_false hq]
  simp [Api.chatPOST, hauth, hu2, hq2]

theorem chat_appends_two_turns_witness :
    Auth.validateApiKey (some ("Bearer x")) = true ∧
    (Api.chatPOST ⟨some ("Bearer x"), none,
        some ⟨some ("https://acme.example"), some ("what do they sell"), none⟩⟩ 0 []).1 =
      ⟨200, Api.Body.chatSuccessBody Api.chatResponseText
        [⟨"user", "what do they sell"⟩,
         ⟨"assistant", Api.chatAssistantText⟩]⟩ :=
  ⟨by decide, by
    have h := chat_appends_two_turns (some ("Bearer x")) none
      ("https://acme.example") ("what do they sell") none 0 []
      (by decide) (by decide) (by decide)
    simpa using h⟩

/-- C1: the chat route does not enforce its rate limit.  At a state where
the requesting IP has already used its 20-request window, checkRateLimit
returns false, yet the chat POST handler still returns the 200 conversation
response instead of a 429 rejection: the stray semicolon in
`if (!checkRateLimit(clientIp, 20));` (src/app/api/chat/route.ts line 15)
discards the verdict. -/
theorem chat_rate_limit_not_enforced :
    (RateLimit.checkRateLimit ("1.2.3.4") 20 1000
      [(("1.2.3.4"), ⟨20, 60000⟩)]).1 = false ∧
    (Api.chatPOST ⟨some ("Bearer k"), some ("1.2.3.4"),
        some ⟨some ("https://a.example"), some ("hi"), some []⟩⟩ 1000
        [(("1.2.3.4"), ⟨20, 60000⟩)]).1 =
      ⟨200, Api.Body.chatSuccessBody Api.chatResponseText
        [⟨"user", "hi"⟩, ⟨"assistant", Api.chatAssistantText⟩]⟩ := by
  constructor <;> decide

/-- After writing a window for a key, looking the key up finds it. -/
theorem lookup_setEntry_self (st : RateLimit.RLState) (k : String)
    (w : RateLimit.Window) :
    RateLimit.lookup (RateLimit.setEntry st k w) k = some w := by
  induction st with
  | nil => simp [RateLimit.setEntry, RateLimit.lookup]
  | cons p rest ih =>
    obtain ⟨k0, w0⟩ := p
    by_cases h : k0 = k
    · simp [RateLimit.setEntry, RateLimit.lookup, h]
    · simp [RateLimit.setEntry, RateLimit.lookup, h, ih]

/-- Inside one window (no timestamp past the reset time), a call sequence
starting from count `c` yields verdicts `decide (c + i < maxRequests)` in
call order: the counter advances only while calls are admitted. -/
theorem simulate_in_window (ip : String) (m : Nat) (ts : List Nat) :
    ∀ (st : RateLimit.RLState) (c r : Nat),
      RateLimit.lookup st ip = some ⟨c, r⟩ →
      (∀ t ∈ ts, ¬ r < t) →
      (RateLimit.simulate ip m ts st).1 =
        (List.range ts.length).map (fun i => decide (c + i < m)) := by
  induction ts with
  | nil => intro st c r hlk hw; rfl
  | cons t ts ih =>
    intro st c r hlk hw
    have hnt : ¬ r < t := hw t (List.mem_cons_self t ts)
    have hw2 : ∀ x ∈ ts, ¬ r < x := fun x hx => hw x (List.mem_cons_of_mem t hx)
    simp only [RateLimit.simulate, RateLimit.checkRateLimit, hlk]
    rw [if_neg hnt]
    rw [List.length_cons, List.range_succ_eq_map, List.map_cons, List.map_map]
    by_cases hcm : m ≤ c
    · rw [if_pos hcm]
      have htail := ih st c r hlk hw2
      simp only [htail, Function.comp]
      congr 1
      · exact (decide_eq_false (by omega)).symm
      · exact List.map_congr_left fun i _ => decide_eq_decide.mpr (by omega)
    · rw [if_neg hcm]
      have htail := ih (RateLimit.setEntry st ip ⟨c + 1, r⟩) (c + 1) r
        (lookup_setEntry_self st ip ⟨c + 1, r⟩) hw2
      simp only [htail, Function.comp]
      congr 1
      · exact (decide_eq_true (by omega)).symm
      · exact List.map_congr_left fun i _ => decide_eq_decide.mpr (by omega)

/-- C2 (amended: maxRequests ≥ 1): checkRateLimit is a fixed-window counter.
First conjunct — starting with no entry for the IP, in any call sequence
whose later timestamps all fall before the reset time of the window opened
by the first call, exactly the first maxRequests calls return true and
every later call returns false.  Second conjunct — the first call whose
timestamp is strictly after the reset time returns true and starts a fresh
window with count 1. -/
theorem checkRateLimit_fixed_window
    (ip : String) (m : Nat) (st : RateLimit.RLState) (t0 : Nat) (ts : List Nat)
    (hm : 1 ≤ m) (h0 : RateLimit.lookup st ip = none)
    (hts : ∀ t ∈ ts, t < t0 + RateLimit.windowMs) :
    ((RateLimit.simulate ip m (t0 :: ts) st).1 =
      (List.range (ts.length + 1)).map (fun i => decide (i < m))) ∧
    ∀ (st2 : RateLimit.RLState) (c r t : Nat),
      RateLimit.lookup st2 ip = some ⟨c, r⟩ → r < t →
      RateLimit.checkRateLimit ip m t st2 =
        (true, RateLimit.setEntry st2 ip ⟨1, t + RateLimit.windowMs⟩) := by
  constructor
  · simp only [RateLimit.simulate, RateLimit.checkRateLimit, h0]
    have htail := simulate_in_window ip m ts
      (RateLimit.setEntry st ip ⟨1, t0 + RateLimit.windowMs⟩) 1
      (t0 + RateLimit.windowMs)
      (lookup_setEntry_self st ip ⟨1, t0 + RateLimit.windowMs⟩)
      (fun t ht => by have := hts t ht; omega)
    simp only [htail, List.range_succ_eq_map, List.map_cons, List.map_map,
      Function.comp]
    congr 1
    · exact (decide_eq_true (by omega)).symm
    · exact List.map_congr_left fun i _ => decide_eq_decide.mpr (by omega)
  · intro st2 c r t hlk hrt
    simp only [RateLimit.checkRateLimit, hlk]
    rw [if_pos hrt]

theorem checkRateLimit_fixed_window_witness :
    ((RateLimit.simulate ("ip") 2 [0, 1, 5] []).1 = [true, true, false]) ∧
    RateLimit.checkRateLimit ("ip") 2 70000 [(("ip"), ⟨2, 60000⟩)] =
      (true, [(("ip"), ⟨1, 130000⟩)]) := by
  have h := checkRateLimit_fixed_window ("ip") 2 [] 0 [1, 5]
    (by decide) rfl (by decide)
  refine ⟨by rw [h.1]; decide, ?_⟩
  rw [h.2 [(("ip"), ⟨2, 60000⟩)] 2 60000 70000 rfl (by decide)]
  decide

/-- C2 counterexample: instantiated at maxRequests = 0, the claim demands
that no call return true, but the very first call in a fresh window returns
true (the miss branch of checkRateLimit admits it unconditionally). -/
theorem checkRateLimit_zero_max_counterexample :
    (RateLimit.simulate ("ip") 0 [0] []).1 ≠
      (List.range 1).map (fun i => decide (i < 0)) := by decide

/-- Once the key is PENDING, further arrivals only join the waiter list:
status, fetch count and delivered results are untouched. -/
theorem arriveAll_pending (cs : List Nat) :
    ∀ (s : Core.SFState), s.status = some Core.Status.pending →
      Core.arriveAll cs s = { s with waiting := s.waiting ++ cs } := by
  induction cs with
  | nil => intro s h; simp [Core.arriveAll]
  | cons c cs ih =>
    intro s h
    have harr : Core.arrive c s = { s with waiting := s.waiting ++ [c] } := by
      unfold Core.arrive
      rw [h]
    simp only [Core.arriveAll, List.foldl_cons] at *
    rw [harr, ih { s with waiting := s.waiting ++ [c] } h]
    simp

/-- C5: single-flight.  Any number N ≥ 2 of AnalyzeURL arrivals for the
same key, interleaved on a cold cache before the in-flight work resolves,
start exactly one fetch+extract, and when the work resolves every caller
receives the same result. -/
theorem single_flight_one_fetch (callers : List Nat) (v : String)
    (hn : 2 ≤ callers.length) :
    (Core.resolve v (Core.arriveAll callers Core.SFState.init)).fetchCount = 1 ∧
    (Core.resolve v (Core.arriveAll callers Core.SFState.init)).delivered =
      callers.map (fun c => (c, v)) := by
  obtain ⟨c, rest, rfl⟩ : ∃ c rest, callers = c :: rest := by
    cases callers with
    | nil => simp at hn
    | cons c rest => exact ⟨c, rest, rfl⟩
  have h1 : Core.arriveAll (c :: rest) Core.SFState.init =
      ⟨some Core.Status.pending, 1, c :: rest, []⟩ := by
    simp only [Core.arriveAll, List.foldl_cons]
    have harr : Core.arrive c Core.SFState.init =
        ⟨some Core.Status.pending, 1, [c], []⟩ := rfl
    rw [harr]
    have h2 := arriveAll_pending rest ⟨some Core.Status.pending, 1, [c], []⟩ rfl
    simp only [Core.arriveAll] at h2
    simpa using h2
  rw [h1]
  exact ⟨rfl, by simp [Core.resolve]⟩

theorem single_flight_one_fetch_witness :
    2 ≤ ([0, 1, 2] : List Nat).length ∧
    (Core.resolve ("extracted") (Core.arriveAll [0, 1, 2] Core.SFState.init)).fetchCount = 1 ∧
    (Core.resolve ("extracted") (Core.arriveAll [0, 1, 2] Core.SFState.init)).delivered =
      [(0, ("extracted")), (1, ("extracted")), (2, ("extracted"))] := by
  have h := single_flight_one_fetch [0, 1, 2] ("extracted") (by decide)
  exact ⟨by decide, h.1, by rw [h.2]; rfl⟩

/-- C6: AppendPage is additive on the chunk sequence — the length never
shrinks, every pre-append chunk is still present afterwards, and in
particular every pre-append chunk id is still present with unchanged
text. -/
theorem appendPage_additive (rec : Core.AnalysisRecord) (subURL text : String)
    (links : Core.LinkIndex) :
    rec.chunks.length ≤ (Core.appendPage rec subURL text links).chunks.length ∧
    (∀ c ∈ rec.chunks, c ∈ (Core.appendPage rec subURL text links).chunks) ∧
    ∀ c ∈ rec.chunks, ∃ d ∈ (Core.appendPage rec subURL text links).chunks,
      d.id = c.id ∧ d.text = c.text := by
  refine ⟨by simp [Core.appendPage], ?_, ?_⟩
  · intro c hc
    simp only [Core.appendPage, List.mem_append]
    exact Or.inl hc
  · intro c hc
    refine ⟨c, ?_, rfl, rfl⟩
    simp only [Core.appendPage, List.mem_append]
    exact Or.inl hc

theorem appendPage_additive_witness :
    (⟨0, "https://acme.example", "alpha beta", none⟩ : Core.Chunk) ∈
      (Core.appendPage Core.sampleRecord ("https://acme.example/pricing")
        ("pricing words here") ⟨[], [], [], [], []⟩).chunks :=
  (appendPage_additive Core.sampleRecord ("https://acme.example/pricing")
      ("pricing words here") ⟨[], [], [], [], []⟩).2.1
    ⟨0, "https://acme.example", "alpha beta", none⟩ (by decide)

/-- The lexical ranking always returns min k n results: ranking permutes
the scored chunks (one per cached chunk) and truncation takes k of them. -/
theorem retrieveLex_length (chunks : List Core.Chunk) (q : String) (k : Nat) :
    (Core.retrieveLex chunks q k).length = min k chunks.length := by
  unfold Core.retrieveLex Core.rankChunks
  rw [List.length_take,
    (List.perm_insertionSort Core.rankLe (Core.scoredChunks chunks q)).length_eq]
  simp [Core.scoredChunks]

/-- C8: when no embedding service is configured, or the embedding call for
the query errors, Retrieve takes the lexical-overlap path and returns a
ranked result instead of raising an error, with min k n entries. -/
theorem retrieve_lexical_fallback_total (svc : Option Core.EmbedSvc)
    (chunks : List Core.Chunk) (query : String) (k : Nat)
    (hdeg : svc = none ∨ ∃ f e, svc = some f ∧ f query = Except.error e) :
    Core.retrieveE svc chunks query k =
      Except.ok (Core.retrieveLex chunks query k) ∧
    (Core.retrieveLex chunks query k).length = min k chunks.length := by
  constructor
  · rcases hdeg with rfl | ⟨f, e, rfl, hf⟩
    · rfl
    · simp [Core.retrieveE, hf]
  · exact retrieveLex_length chunks query k

theorem retrieve_lexical_fallback_total_witness :
    Core.retrieveE none
        [⟨0, "u", "alpha beta gamma", none⟩, ⟨1, "u", "delta epsilon", none⟩]
        ("alpha question") 1 =
      Except.ok (Core.retrieveLex
        [⟨0, "u", "alpha beta gamma", none⟩, ⟨1, "u", "delta epsilon", none⟩]
        ("alpha question") 1) ∧
    (Core.retrieveLex
        [⟨0, "u", "alpha beta gamma", none⟩, ⟨1, "u", "delta epsilon", none⟩]
        ("alpha question") 1).length = min 1 2 :=
  retrieve_lexical_fallback_total none
    [⟨0, "u", "alpha beta gamma", none⟩, ⟨1, "u", "delta epsilon", none⟩]
    ("alpha question") 1 (Or.inl rfl)

/-- Two elements each ranking no lower than the other have equal score and
equal append position. -/
theorem rankLe_antisymm_key {a b : Core.Ranked}
    (h1 : Core.rankLe a b) (h2 : Core.rankLe b a) : a.1 = b.1 := by
  unfold Core.rankLe at h1 h2
  omega

/-- Uniqueness of an ordered permutation when the relation is antisymmetric
up to the key and the keys are distinct: two lists with the same elements,
both ordered by rankLe, are identical. -/
theorem ranking_eq_of_perm_of_pairwise :
    ∀ (l₁ l₂ : List Core.Ranked), l₁.Perm l₂ →
      l₁.Pairwise Core.rankLe → l₂.Pairwise Core.rankLe →
      (l₁.map (fun x => x.1)).Nodup → l₁ = l₂ := by
  intro l₁
  induction l₁ with
  | nil =>
    intro l₂ hp _ _ _
    exact (hp.symm.eq_nil).symm
  | cons a t₁ ih =>
    intro l₂ hp h₁ h₂ hnd
    cases l₂ with
    | nil => exact absurd hp.eq_nil (by simp)
    | cons b t₂ =>
      by_cases hab : a = b
      · subst hab
        have ht : t₁.Perm t₂ := hp.cons_inv
        rw [ih t₂ ht (List.pairwise_cons.mp h₁).2 (List.pairwise_cons.mp h₂).2
          (by simp only [List.map_cons, List.nodup_cons] at hnd; exact hnd.2)]
      · have ha2 : a ∈ b :: t₂ := hp.subset (List.mem_cons_self a t₁)
        have hat2 : a ∈ t₂ := by
          rcases List.mem_cons.mp ha2 with h | h
          · exact absurd h hab
          · exact h
        have hb1 : b ∈ a :: t₁ := hp.symm.subset (List.mem_cons_self b t₂)
        have hbt1 : b ∈ t₁ := by
          rcases List.mem_cons.mp hb1 with h | h
          · exact absurd h.symm hab
          · exact h
        have hba : Core.rankLe b a := (List.pairwise_cons.mp h₂).1 a hat2
        have hab2 : Core.rankLe a b := (List.pairwise_cons.mp h₁).1 b hbt1
        have hkey : a.1 = b.1 := rankLe_antisymm_key hab2 hba
        have hmem : b.1 ∈ t₁.map (fun x => x.1) :=
          List.mem_map_of_mem (fun x => x.1) hbt1
        simp only [List.map_cons, List.nodup_cons] at hnd
        exact absurd (hkey ▸ hmem) hnd.1

/-- The append positions carried by the scored chunks are distinct. -/
theorem scoredChunks_keys_nodup (chunks : List Core.Chunk) (q : String) :
    ((Core.scoredChunks chunks q).map (fun x => x.1)).Nodup := by
  unfold Core.scoredChunks
  rw [List.map_map]
  exact List.nodup_enum_map_fst chunks

/-- The ranking Retrieve computes is a valid ranking. -/
theorem rankChunks_isRankingOf (chunks : List Core.Chunk) (q : String) :
    Core.IsRankingOf chunks q (Core.rankChunks chunks q) :=
  ⟨List.perm_insertionSort Core.rankLe (Core.scoredChunks chunks q),
   List.sorted_insertionSort Core.rankLe (Core.scoredChunks chunks q)⟩

/-- Any two valid rankings of a fixed chunk set for a fixed query are
identical. -/
theorem isRankingOf_unique (chunks : List Core.Chunk) (q : String)
    (l₁ l₂ : List Core.Ranked)
    (h₁ : Core.IsRankingOf chunks q l₁) (h₂ : Core.IsRankingOf chunks q l₂) :
    l₁ = l₂ := by
  refine ranking_eq_of_perm_of_pairwise l₁ l₂ (h₁.1.trans h₂.1.symm) h₁.2 h₂.2 ?_
  exact ((h₁.1.map (fun x => x.1)).nodup_iff).mpr (scoredChunks_keys_nodup chunks q)

/-- C7: Retrieve is deterministic for a fixed chunk set, query and k — the
ranking order (score descending, ties broken by recency) admits exactly one
ordered arrangement of the scored chunks, so any two valid ranking results
agree on their top k, and retrieveLex returns exactly that. -/
theorem retrieve_deterministic (chunks : List Core.Chunk) (query : String)
    (k : Nat) (l₁ l₂ : List Core.Ranked)
    (h₁ : Core.IsRankingOf chunks query l₁)
    (h₂ : Core.IsRankingOf chunks query l₂) :
    l₁.take k = l₂.take k ∧ Core.retrieveLex chunks query k = l₁.take k := by
  have e₁ : l₁ = Core.rankChunks chunks query :=
    isRankingOf_unique chunks query l₁ (Core.rankChunks chunks query) h₁
      (rankChunks_isRankingOf chunks query)
  have e₂ : l₂ = Core.rankChunks chunks query :=
    isRankingOf_unique chunks query l₂ (Core.rankChunks chunks query) h₂
      (rankChunks_isRankingOf chunks query)
  exact ⟨by rw [e₁, e₂], by rw [e₁]; rfl⟩

theorem retrieve_deterministic_witness :
    ([((1 : Nat), (⟨1, "u", "alpha beta", none⟩ : Core.Chunk), (2 : Int)),
      (0, ⟨0, "u", "alpha beta gamma", none⟩, 2)].take 2 =
     [((1 : Nat), (⟨1, "u", "alpha beta", none⟩ : Core.Chunk), (2 : Int)),
      (0, ⟨0, "u", "alpha beta gamma", none⟩, 2)].take 2) ∧
    Core.retrieveLex
        [⟨0, "u", "alpha beta gamma", none⟩, ⟨1, "u", "alpha beta", none⟩]
        ("alpha beta") 2 =
      [((1 : Nat), (⟨1, "u", "alpha beta", none⟩ : Core.Chunk), (2 : Int)),
       (0, ⟨0, "u", "alpha beta gamma", none⟩, 2)].take 2 :=
  retrieve_deterministic
    [⟨0, "u", "alpha beta gamma", none⟩, ⟨1, "u", "alpha beta", none⟩]
    ("alpha beta") 2
    [((1 : Nat), (⟨1, "u", "alpha beta", none⟩ : Core.Chunk), (2 : Int)),
     (0, ⟨0, "u", "alpha beta gamma", none⟩, 2)]
    [((1 : Nat), (⟨1, "u", "alpha beta", none⟩ : Core.Chunk), (2 : Int)),
     (0, ⟨0, "u", "alpha beta gamma", none⟩, 2)]
    ⟨by decide, by decide⟩ ⟨by decide, by decide⟩
